import Mathlib

/-!
Shallow embedding of the Procastify storage layer (StorageService and its
local helpers). Guest-mode data lives in a browser-local table shared by
all users and filtered by an owner field; authenticated-mode data lives in
a remote document store addressed by paths users/{uid}/{coll}/{docId}.
The module-level session variables currentUserId and isGuestMode, the
local table, the remote store and the current wall-clock instant are
gathered into one explicit State that every operation threads.
-/

namespace Procastify

/-- An instant of wall-clock time. The source stores timestamps as ISO
strings and compares them through their calendar date (toDateString for
the streak, the YYYY-MM-DD prefix of toISOString for the activity key);
day is the calendar-day index and tod distinguishes instants within one
day. -/
structure Timestamp where
  day : Nat
  tod : Nat
deriving Repr, DecidableEq

/-- A persisted entity record (Note, Summary, QueueItem, RoutineTask or
Quiz). The storage layer is generic over records carrying a userId field
and only ever reads id and userId; the remaining domain-specific fields
are abstracted into payload. -/
structure Entity where
  id : String
  userId : String
  payload : Nat
deriving Repr, DecidableEq

/-- The UserStats record of types.ts; dailyActivity maps a calendar-day
key to minutes studied that day (an association list with unique keys,
mirroring a JS object). -/
structure UserStats where
  id : String
  userId : String
  totalTimeStudiedMinutes : Nat
  notesCreated : Nat
  quizzesTaken : Nat
  loginStreak : Nat
  lastLoginDate : Timestamp
  dailyActivity : List (Nat × Nat)
  highScore : Nat
deriving Repr, DecidableEq

/-- Read a key of a dailyActivity object, as s.dailyActivity[key] does. -/
def lookupDay : List (Nat × Nat) → Nat → Option Nat
  | [], _ => none
  | (k0, v0) :: rest, k => if k0 == k then some v0 else lookupDay rest k

/-- Overwrite or insert a key of a dailyActivity object, as the spread
with a computed key does (keys of a JS object are unique, so replacing
the first occurrence is exact). -/
def setDay : List (Nat × Nat) → Nat → Nat → List (Nat × Nat)
  | [], k, v => [(k, v)]
  | (k0, v0) :: rest, k, v =>
      if k0 == k then (k, v) :: rest else (k0, v0) :: setDay rest k v

/-- The LOCAL_KEYS entries holding entity collections (the stats key holds
UserStats records and is kept as its own field of LocalDB). -/
inductive StoreKey
  | notes
  | summaries
  | queue
  | tasks
  | quizzes
deriving Repr, DecidableEq

/-- The browser-local table: one JSON array per LOCAL_KEYS entry. -/
structure LocalDB where
  notes : List Entity
  summaries : List Entity
  queue : List Entity
  tasks : List Entity
  quizzes : List Entity
  stats : List UserStats
deriving Repr, DecidableEq

/-- getLocalDB: read one collection's array from the local table. -/
def getLocalDB (db : LocalDB) : StoreKey → List Entity
  | .notes => db.notes
  | .summaries => db.summaries
  | .queue => db.queue
  | .tasks => db.tasks
  | .quizzes => db.quizzes

/-- saveLocalDB: overwrite one collection's array in the local table. -/
def saveLocalDB (db : LocalDB) (k : StoreKey) (items : List Entity) : LocalDB :=
  match k with
  | .notes => { db with notes := items }
  | .summaries => { db with summaries := items }
  | .queue => { db with queue := items }
  | .tasks => { db with tasks := items }
  | .quizzes => { db with quizzes := items }

/-- getLocalUserItems: the shared array filtered to one owner. -/
def getLocalUserItems (db : LocalDB) (k : StoreKey) (userId : String) : List Entity :=
  (getLocalDB db k).filter (fun item => item.userId == userId)

/-- saveLocalUserItems: keep every other owner's records and replace the
given owner's slice with items. -/
def saveLocalUserItems (db : LocalDB) (k : StoreKey) (userId : String)
    (items : List Entity) : LocalDB :=
  saveLocalDB db k ((getLocalDB db k).filter (fun i => i.userId != userId) ++ items)

/-- The value stored in one remote document: entity collections hold
entity records, the stats singleton holds a UserStats record. -/
inductive DocData
  | entityDoc (e : Entity)
  | statsDoc (s : UserStats)
deriving Repr, DecidableEq

/-- Models the unchecked cast of snap.data() to UserStats in getStats. In
every state the storage layer itself produces, the only document at the
stats path is a statsDoc, so the entityDoc branch is never exercised by
the theorems below. -/
def DocData.asStats : DocData → UserStats
  | .statsDoc s => s
  | .entityDoc e =>
      { id := e.id, userId := e.userId, totalTimeStudiedMinutes := 0,
        notesCreated := 0, quizzesTaken := 0, loginStreak := 0,
        lastLoginDate := ⟨0, 0⟩, dailyActivity := [], highScore := 0 }

/-- One remote document at path users/uid/coll/docId. -/
structure RemoteDoc where
  uid : String
  coll : String
  docId : String
  data : DocData
deriving Repr, DecidableEq

/-- The remote document store. -/
structure RemoteDB where
  docs : List RemoteDoc
deriving Repr, DecidableEq

/-- Whether a stored document sits at the given path. -/
def pathIs (uid coll docId : String) (d : RemoteDoc) : Bool :=
  d.uid == uid && d.coll == coll && d.docId == docId

/-- setDoc: full-document overwrite at a path (create if absent). -/
def RemoteDB.setDoc (r : RemoteDB) (uid coll docId : String) (data : DocData) : RemoteDB :=
  ⟨r.docs.filter (fun d => !(pathIs uid coll docId d)) ++ [⟨uid, coll, docId, data⟩]⟩

/-- getDoc: fetch the document at a path, if any. -/
def RemoteDB.getDoc (r : RemoteDB) (uid coll docId : String) : Option DocData :=
  (r.docs.find? (pathIs uid coll docId)).map RemoteDoc.data

/-- getDocs over collection(db, users, uid, coll): every document stored
under that subcollection path. -/
def RemoteDB.getDocsData (r : RemoteDB) (uid coll : String) : List DocData :=
  (r.docs.filter (fun d => d.uid == uid && d.coll == coll)).map RemoteDoc.data

/-- One queued batch.set operation of a writeBatch. -/
structure BatchOp where
  uid : String
  coll : String
  docId : String
  data : DocData
deriving Repr, DecidableEq

/-- Apply a committed batch: its set operations land in order (a later
set on the same path overrides an earlier one). -/
def applyBatch (r : RemoteDB) (ops : List BatchOp) : RemoteDB :=
  ops.foldl (fun acc op => acc.setDoc op.uid op.coll op.docId op.data) r

/-- The storage layer's whole world: the two module-level session
variables, the local table, the remote store, and the current instant. -/
structure State where
  currentUserId : Option String
  isGuestMode : Bool
  localDB : LocalDB
  remote : RemoteDB
  now : Timestamp
deriving Repr, DecidableEq

/-- createEmptyStats: a fresh all-zero stats record stamped with the
current instant. -/
def createEmptyStats (userId : String) (now : Timestamp) : UserStats :=
  { id := "stats_" ++ userId, userId := userId, totalTimeStudiedMinutes := 0,
    notesCreated := 0, quizzesTaken := 0, loginStreak := 0,
    lastLoginDate := now, dailyActivity := [], highScore := 0 }

/-- StorageService.getStats: return the current user's stats record,
lazily creating and persisting an empty one on first access; with no
active session, an unpersisted empty record for user unknown. -/
def getStats (st : State) : UserStats × State :=
  match st.currentUserId with
  | none => (createEmptyStats "unknown" st.now, st)
  | some uid =>
    if st.isGuestMode then
      match st.localDB.stats.find? (fun s => s.userId == uid) with
      | some stats => (stats, st)
      | none =>
        let stats := createEmptyStats uid st.now
        (stats, { st with localDB := { st.localDB with stats := st.localDB.stats ++ [stats] } })
    else
      match st.remote.getDoc uid "data" "stats" with
      | some d => (d.asStats, st)
      | none =>
        let newStats := createEmptyStats uid st.now
        (newStats, { st with remote := st.remote.setDoc uid "data" "stats" (.statsDoc newStats) })

/-- The pure read component of getStats: observe the stored stats record
for the current user without the lazy-creation side effect. -/
def peekStats (st : State) : Option UserStats :=
  match st.currentUserId with
  | none => none
  | some uid =>
    if st.isGuestMode then
      st.localDB.stats.find? (fun s => s.userId == uid)
    else
      (st.remote.getDoc uid "data" "stats").map DocData.asStats

/-- Replace the first stats record matching the owner, else push at the
end: the findIndex / push sequence of updateStats. -/
def setFirstMatch : List UserStats → String → UserStats → List UserStats
  | [], _, u => [u]
  | s :: rest, uid, u =>
      if s.userId == uid then u :: rest else s :: setFirstMatch rest uid u

/-- StorageService.updateStats: read current stats, apply the pure
updater, persist the result. The source also returns the updated record;
no embedded caller uses it, so only the resulting state is kept. -/
def updateStats (st : State) (updater : UserStats → UserStats) : State :=
  match st.currentUserId with
  | none => st
  | some uid =>
    let r := getStats st
    let updated := updater r.1
    let st1 := r.2
    if st1.isGuestMode then
      { st1 with localDB := { st1.localDB with stats := setFirstMatch st1.localDB.stats uid updated } }
    else
      { st1 with remote := st1.remote.setDoc uid "data" "stats" (.statsDoc updated) }

/-- StorageService.checkLoginStreak: when the stored last-login calendar
date differs from today, bump the streak if it was exactly yesterday and
reset it to 1 otherwise, stamping lastLoginDate with the current instant. -/
def checkLoginStreak (st : State) : State :=
  match st.currentUserId with
  | none => st
  | some _ =>
    let r := getStats st
    let stats := r.1
    let st1 := r.2
    let lastDate := stats.lastLoginDate.day
    let today := st1.now.day
    if lastDate != today then
      let newStreak := if lastDate == today - 1 then stats.loginStreak + 1 else 1
      updateStats st1 (fun s => { s with loginStreak := newStreak, lastLoginDate := st1.now })
    else
      st1

/-- StorageService.logStudyTime: add minutes to the lifetime total and to
today's entry of the daily-activity histogram, creating it if absent. -/
def logStudyTime (st : State) (minutes : Nat) : State :=
  match st.currentUserId with
  | none => st
  | some _ =>
    let todayKey := st.now.day
    updateStats st (fun s =>
      let currentDaily := (lookupDay s.dailyActivity todayKey).getD 0
      { s with
        totalTimeStudiedMinutes := s.totalTimeStudiedMinutes + minutes,
        dailyActivity := setDay s.dailyActivity todayKey (currentDaily + minutes) })

/-- The collection-name to LOCAL_KEYS map of loadCollection's guest
branch; an unrecognized name has no key. -/
def localKeyOf : String → Option StoreKey
  | "notes" => some .notes
  | "summaries" => some .summaries
  | "queue" => some .queue
  | "tasks" => some .tasks
  | "quizzes" => some .quizzes
  | _ => none

/-- StorageService.loadCollection: the generic dispatcher. Guest mode
resolves the name through the key map and filters the shared table to the
current user; authenticated mode queries the name directly as a
subcollection path and returns whatever documents live there (the cast of
each document back to the caller's type is unchecked, so the stored
values are returned as they are). -/
def loadCollection (st : State) (collectionName : String) : List DocData :=
  match st.currentUserId with
  | none => []
  | some uid =>
    if st.isGuestMode then
      match localKeyOf collectionName with
      | none => []
      | some key => (getLocalUserItems st.localDB key uid).map DocData.entityDoc
    else
      st.remote.getDocsData uid collectionName

/-- StorageService.getNotes. -/
def getNotes (st : State) : List DocData :=
  loadCollection st "notes"

/-- StorageService.getSummaries. -/
def getSummaries (st : State) : List DocData :=
  loadCollection st "summaries"

/-- StorageService.saveNotes: guest mode replaces the current user's
slice of the shared table with the given list; authenticated mode issues
one batch.set per listed record and commits the batch. commitOk models
the remote store accepting the all-or-nothing commit (its documented
contract); on failure the rejection propagates and no document changes. -/
def saveNotes (st : State) (notes : List Entity) (commitOk : Bool) : State :=
  match st.currentUserId with
  | none => st
  | some uid =>
    if st.isGuestMode then
      { st with localDB := saveLocalUserItems st.localDB .notes uid notes }
    else
      if commitOk then
        let ops := notes.map (fun note => BatchOp.mk uid "notes" note.id (.entityDoc note))
        { st with remote := applyBatch st.remote ops }
      else st

/-- StorageService.saveSummaries: same shape as saveNotes over the
summaries collection. -/
def saveSummaries (st : State) (summaries : List Entity) (commitOk : Bool) : State :=
  match st.currentUserId with
  | none => st
  | some uid =>
    if st.isGuestMode then
      { st with localDB := saveLocalUserItems st.localDB .summaries uid summaries }
    else
      if commitOk then
        let ops := summaries.map (fun summary => BatchOp.mk uid "summaries" summary.id (.entityDoc summary))
        { st with remote := applyBatch st.remote ops }
      else st

/-- The batch queued by StorageService.migrateData before its single
commit: every local record owned by guestId across the five entity
collections, re-stamped to authId and addressed into authId's remote
subcollections, then the guest's stats record if present, re-stamped and
given the derived stats id. -/
def migrateOps (st : State) (guestId authId : String) : List BatchOp :=
  let notes := getLocalUserItems st.localDB .notes guestId
  let summaries := getLocalUserItems st.localDB .summaries guestId
  let queue := getLocalUserItems st.localDB .queue guestId
  let tasks := getLocalUserItems st.localDB .tasks guestId
  let quizzes := getLocalUserItems st.localDB .quizzes guestId
  let guestStats := st.localDB.stats.find? (fun s => s.userId == guestId)
  notes.map (fun item => ⟨authId, "notes", item.id, .entityDoc { item with userId := authId }⟩)
  ++ summaries.map (fun item => ⟨authId, "summaries", item.id, .entityDoc { item with userId := authId }⟩)
  ++ queue.map (fun item => ⟨authId, "queue", item.id, .entityDoc { item with userId := authId }⟩)
  ++ tasks.map (fun item => ⟨authId, "tasks", item.id, .entityDoc { item with userId := authId }⟩)
  ++ quizzes.map (fun item => ⟨authId, "quizzes", item.id, .entityDoc { item with userId := authId }⟩)
  ++ (match guestStats with
      | some s => [⟨authId, "data", "stats", .statsDoc { s with userId := authId, id := "stats_" ++ authId }⟩]
      | none => [])

/-- StorageService.migrateData: queue the whole guest data set into one
writeBatch and commit it once. commitOk models the remote store accepting
the all-or-nothing commit; a rejected commit propagates and leaves both
stores untouched. -/
def migrateData (st : State) (guestId authId : String) (commitOk : Bool) : State :=
  if commitOk then
    { st with remote := applyBatch st.remote (migrateOps st guestId authId) }
  else st

/-! Helper lemmas about the remote store and the small list helpers. -/

theorem find?_filter_of_imp {α : Type} (p q : α → Bool) (l : List α)
    (h : ∀ x, p x = true → q x = true) :
    List.find? p (l.filter q) = List.find? p l := by
  induction l with
  | nil => rfl
  | cons a t ih =>
    by_cases hq : q a = true
    · simp only [List.filter_cons, hq, if_true]
      by_cases hp : p a = true
      · simp [List.find?, hp]
      · simp only [List.find?, hp]
        simpa [Bool.not_eq_true] using ih
    · have hp : p a = false := by
        cases hpa : p a with
        | false => rfl
        | true => exact absurd (h a hpa) hq
      simp only [List.filter_cons, hq, if_false]
      simpa [List.find?, hp] using ih

theorem getDoc_setDoc_same (r : RemoteDB) (u c i : String) (d : DocData) :
    (r.setDoc u c i d).getDoc u c i = some d := by
  have hnone : List.find? (pathIs u c i) (r.docs.filter (fun x => !(pathIs u c i x))) = none := by
    rw [List.find?_eq_none]
    intro x hx
    have := (List.mem_filter.mp hx).2
    simp only [Bool.not_eq_true'] at this
    simp [this]
  simp only [RemoteDB.setDoc, RemoteDB.getDoc, List.find?_append, hnone, Option.none_or]
  simp [pathIs]

theorem getDoc_setDoc_ne (r : RemoteDB) (u c i u' c' i' : String) (d : DocData)
    (hne : ¬(u = u' ∧ c = c' ∧ i = i')) :
    (r.setDoc u c i d).getDoc u' c' i' = r.getDoc u' c' i' := by
  have hlast : pathIs u' c' i' (RemoteDoc.mk u c i d) = false := by
    simp only [pathIs]
    cases hu : (u == u') <;> cases hc : (c == c') <;> cases hi : (i == i') <;> simp_all [beq_iff_eq]
  have hfilt : List.find? (pathIs u' c' i') (r.docs.filter (fun x => !(pathIs u c i x)))
      = List.find? (pathIs u' c' i') r.docs := by
    apply find?_filter_of_imp
    intro x hx
    simp only [Bool.not_eq_true', Bool.not_eq_true]
    cases hp : pathIs u c i x with
    | false => rfl
    | true =>
      exfalso
      simp only [pathIs, Bool.and_eq_true, beq_iff_eq] at hx hp
      exact hne ⟨hp.1.1.symm.trans hx.1.1, hp.1.2.symm.trans hx.1.2, hp.2.symm.trans hx.2⟩
  simp [RemoteDB.setDoc, RemoteDB.getDoc, List.find?_append, hfilt, hlast, List.find?]

theorem getDoc_applyBatch_untouched (ops : List BatchOp) (r : RemoteDB) (u c i : String)
    (h : ∀ op ∈ ops, ¬(op.uid = u ∧ op.coll = c ∧ op.docId = i)) :
    (applyBatch r ops).getDoc u c i = r.getDoc u c i := by
  induction ops generalizing r with
  | nil => rfl
  | cons op t ih =>
    have hop := h op (List.mem_cons_self op t)
    have ht : ∀ o ∈ t, ¬(o.uid = u ∧ o.coll = c ∧ o.docId = i) :=
      fun o ho => h o (List.mem_cons_of_mem op ho)
    show (applyBatch (r.setDoc op.uid op.coll op.docId op.data) t).getDoc u c i = r.getDoc u c i
    rw [ih _ ht, getDoc_setDoc_ne _ _ _ _ _ _ _ _ hop]

theorem getDoc_applyBatch_map_set (l : List Entity) (f : Entity → DocData)
    (u c : String) (r : RemoteDB) (hnd : (l.map Entity.id).Nodup) (e : Entity) (he : e ∈ l) :
    (applyBatch r (l.map (fun item => BatchOp.mk u c item.id (f item)))).getDoc u c e.id
      = some (f e) := by
  induction l generalizing r with
  | nil => cases he
  | cons a t ih =>
    simp only [List.map_cons, List.nodup_cons, List.mem_map] at hnd
    rcases List.mem_cons.mp he with rfl | het
    · show (applyBatch (r.setDoc u c e.id (f e))
          (t.map (fun item => BatchOp.mk u c item.id (f item)))).getDoc u c e.id = some (f e)
      rw [getDoc_applyBatch_untouched]
      · exact getDoc_setDoc_same _ _ _ _ _
      · intro op hop
        rcases List.mem_map.mp hop with ⟨item, hitem, rfl⟩
        intro ⟨_, _, hid⟩
        exact hnd.1 ⟨item, hitem, hid⟩
    · exact ih _ hnd.2 het

theorem mem_getDocsData_of_getDoc (r : RemoteDB) (u c i : String) (d : DocData)
    (h : r.getDoc u c i = some d) : d ∈ r.getDocsData u c := by
  simp only [RemoteDB.getDoc, Option.map_eq_some'] at h
  rcases h with ⟨doc, hfind, rfl⟩
  have hmem := List.mem_of_find?_eq_some hfind
  have hp := List.find?_some hfind
  simp only [pathIs, Bool.and_eq_true, beq_iff_eq] at hp
  simp only [RemoteDB.getDocsData, List.mem_map]
  refine ⟨doc, List.mem_filter.mpr ⟨hmem, ?_⟩, rfl⟩
  simp [hp.1.1, hp.1.2]

theorem find?_setFirstMatch (l : List UserStats) (uid : String) (u : UserStats)
    (hu : u.userId = uid) :
    List.find? (fun s => s.userId == uid) (setFirstMatch l uid u) = some u := by
  induction l with
  | nil => simp [setFirstMatch, List.find?, hu]
  | cons a t ih =>
    by_cases ha : (a.userId == uid) = true
    · simp [setFirstMatch, ha, List.find?, hu]
    · simp only [Bool.not_eq_true] at ha
      simp [setFirstMatch, ha, List.find?, ih]

theorem lookupDay_setDay (m : List (Nat × Nat)) (k v : Nat) :
    lookupDay (setDay m k v) k = some v := by
  induction m with
  | nil => simp [setDay, lookupDay]
  | cons a t ih =>
    by_cases hk : (a.1 == k) = true
    · simp [setDay, hk, lookupDay]
    · simp only [Bool.not_eq_true] at hk
      cases a with
      | mk k0 v0 => simp_all [setDay, lookupDay]

/-! Characterization lemmas for the stats operations. -/

theorem peekStats_set_now (st : State) (t : Timestamp) :
    peekStats { st with now := t } = peekStats st := rfl

theorem getStats_of_peek (st : State) (uid : String) (s : UserStats)
    (hu : st.currentUserId = some uid) (hs : peekStats st = some s) :
    getStats st = (s, st) := by
  obtain ⟨cu, g, ldb, rdb, n⟩ := st
  have hcu : cu = some uid := hu
  subst hcu
  cases g with
  | true =>
    have hf : ldb.stats.find? (fun x => x.userId == uid) = some s := hs
    simp [getStats, hf]
  | false =>
    have hf : (rdb.getDoc uid "data" "stats").map DocData.asStats = some s := hs
    rcases Option.map_eq_some'.mp hf with ⟨d, hd, hds⟩
    simp [getStats, hd, hds]

theorem peekStats_userId (st : State) (uid : String) (s : UserStats)
    (hu : st.currentUserId = some uid) (hg : st.isGuestMode = true)
    (hs : peekStats st = some s) : s.userId = uid := by
  obtain ⟨cu, g, ldb, rdb, n⟩ := st
  have hcu : cu = some uid := hu
  subst hcu
  have hgg : g = true := hg
  subst hgg
  have hf : ldb.stats.find? (fun x => x.userId == uid) = some s := hs
  have := List.find?_some hf
  exact beq_iff_eq.mp this

theorem updateStats_of_peek (st : State) (uid : String) (s : UserStats)
    (f : UserStats → UserStats)
    (hu : st.currentUserId = some uid) (hs : peekStats st = some s) :
    updateStats st f =
      if st.isGuestMode then
        { st with localDB := { st.localDB with stats := setFirstMatch st.localDB.stats uid (f s) } }
      else
        { st with remote := st.remote.setDoc uid "data" "stats" (.statsDoc (f s)) } := by
  have hg := getStats_of_peek st uid s hu hs
  obtain ⟨cu, g, ldb, rdb, n⟩ := st
  have hcu : cu = some uid := hu
  subst hcu
  cases g with
  | true => simp [updateStats, hg]
  | false => simp [updateStats, hg]

theorem peekStats_updateStats (st : State) (uid : String) (s : UserStats)
    (f : UserStats → UserStats)
    (hu : st.currentUserId = some uid) (hs : peekStats st = some s)
    (hpres : (f s).userId = s.userId) :
    peekStats (updateStats st f) = some (f s) := by
  rw [updateStats_of_peek st uid s f hu hs]
  obtain ⟨cu, g, ldb, rdb, n⟩ := st
  have hcu : cu = some uid := hu
  subst hcu
  cases g with
  | true =>
    have hsu : s.userId = uid := peekStats_userId _ uid s rfl rfl hs
    have : (f s).userId = uid := hpres.trans hsu
    simpa [peekStats] using find?_setFirstMatch ldb.stats uid (f s) this
  | false =>
    simp [peekStats, getDoc_setDoc_same, DocData.asStats]

theorem updateStats_sess (st : State) (uid : String) (s : UserStats)
    (f : UserStats → UserStats)
    (hu : st.currentUserId = some uid) (hs : peekStats st = some s) :
    (updateStats st f).currentUserId = st.currentUserId ∧
    (updateStats st f).isGuestMode = st.isGuestMode ∧
    (updateStats st f).now = st.now := by
  rw [updateStats_of_peek st uid s f hu hs]
  by_cases hg : st.isGuestMode <;> simp [hg]

theorem checkLoginStreak_of_peek (st : State) (uid : String) (s : UserStats)
    (hu : st.currentUserId = some uid) (hs : peekStats st = some s) :
    checkLoginStreak st =
      if s.lastLoginDate.day == st.now.day then st
      else
        updateStats st (fun x => { x with
          loginStreak := if s.lastLoginDate.day == st.now.day - 1 then s.loginStreak + 1 else 1,
          lastLoginDate := st.now }) := by
  have hg := getStats_of_peek st uid s hu hs
  obtain ⟨cu, g, ldb, rdb, n⟩ := st
  have hcu : cu = some uid := hu
  subst hcu
  by_cases hd : s.lastLoginDate.day = n.day
  · simp [checkLoginStreak, hg, hd]
  · simp only [checkLoginStreak, hg, bne_iff_ne, ne_eq, hd, not_false_eq_true, if_true,
      beq_iff_eq, if_neg hd]
    simp

theorem logStudyTime_of_some (st : State) (uid : String) (m : Nat)
    (hu : st.currentUserId = some uid) :
    logStudyTime st m = updateStats st (fun s =>
      { s with
        totalTimeStudiedMinutes := s.totalTimeStudiedMinutes + m,
        dailyActivity := setDay s.dailyActivity st.now.day
          ((lookupDay s.dailyActivity st.now.day).getD 0 + m) }) := by
  obtain ⟨cu, g, ldb, rdb, n⟩ := st
  have hcu : cu = some uid := hu
  subst hcu
  rfl

theorem getStats_create (st : State) (uid : String)
    (hu : st.currentUserId = some uid) (habs : peekStats st = none) :
    (getStats st).1 = createEmptyStats uid st.now ∧
    peekStats (getStats st).2 = some (createEmptyStats uid st.now) ∧
    (getStats st).2.currentUserId = st.currentUserId ∧
    (getStats st).2.isGuestMode = st.isGuestMode ∧
    (getStats st).2.now = st.now := by
  obtain ⟨cu, g, ldb, rdb, n⟩ := st
  have hcu : cu = some uid := hu
  subst hcu
  cases g with
  | true =>
    have hf : ldb.stats.find? (fun x => x.userId == uid) = none := habs
    refine ⟨by simp [getStats, hf], ?_, by simp [getStats, hf], by simp [getStats, hf],
      by simp [getStats, hf]⟩
    simp [getStats, hf, peekStats, List.find?_append, List.find?, createEmptyStats]
  | false =>
    have hf : rdb.getDoc uid "data" "stats" = none := by
      have : (rdb.getDoc uid "data" "stats").map DocData.asStats = none := habs
      exact Option.map_eq_none'.mp this
    refine ⟨by simp [getStats, hf], ?_, by simp [getStats, hf], by simp [getStats, hf],
      by simp [getStats, hf]⟩
    simp [getStats, hf, peekStats, getDoc_setDoc_same, DocData.asStats]

/-! Concrete fixtures used by the witness theorems. -/

def emptyLocal : LocalDB := ⟨[], [], [], [], [], []⟩

def initState (uid : String) (guest : Bool) (t : Timestamp) : State :=
  { currentUserId := some uid, isGuestMode := guest, localDB := emptyLocal,
    remote := ⟨[]⟩, now := t }

/-! Claim theorems. -/

/-- C2: for every active user id with no prior stats record, getStats
returns a record whose numeric counters are all zero and whose
lastLoginDate is the current time, persists it, and a second getStats
call returns the identical record without further change of state. -/
theorem getStats_lazy_create_idempotent (st : State) (uid : String)
    (hu : st.currentUserId = some uid) (habs : peekStats st = none) :
    (getStats st).1.totalTimeStudiedMinutes = 0 ∧
    (getStats st).1.notesCreated = 0 ∧
    (getStats st).1.quizzesTaken = 0 ∧
    (getStats st).1.loginStreak = 0 ∧
    (getStats st).1.highScore = 0 ∧
    (getStats st).1.lastLoginDate = st.now ∧
    getStats (getStats st).2 = ((getStats st).1, (getStats st).2) := by
  obtain ⟨h1, h2, h3, h4, h5⟩ := getStats_create st uid hu habs
  refine ⟨by simp [h1, createEmptyStats], by simp [h1, createEmptyStats],
    by simp [h1, createEmptyStats], by simp [h1, createEmptyStats],
    by simp [h1, createEmptyStats], by simp [h1, createEmptyStats], ?_⟩
  have := getStats_of_peek (getStats st).2 uid (createEmptyStats uid st.now)
    (by rw [h3, hu]) h2
  rw [this, h1]

/-- Witness for C2: a fresh guest session on day 10. -/
theorem getStats_lazy_create_idempotent_witness :
    ((initState "g" true ⟨10, 2⟩).currentUserId = some "g" ∧
      peekStats (initState "g" true ⟨10, 2⟩) = none) ∧
    ((getStats (initState "g" true ⟨10, 2⟩)).1.loginStreak = 0 ∧
      getStats (getStats (initState "g" true ⟨10, 2⟩)).2
        = ((getStats (initState "g" true ⟨10, 2⟩)).1,
           (getStats (initState "g" true ⟨10, 2⟩)).2)) :=
  ⟨⟨rfl, rfl⟩,
    (getStats_lazy_create_idempotent (initState "g" true ⟨10, 2⟩) "g" rfl rfl).2.2.2.1,
    (getStats_lazy_create_idempotent (initState "g" true ⟨10, 2⟩) "g" rfl rfl).2.2.2.2.2.2⟩

/-- C9: a stats record lazily created by getStats earlier the same
calendar day has lastLoginDate equal to today, so checkLoginStreak later
that day leaves loginStreak at 0 rather than setting it to 1. -/
theorem checkLoginStreak_first_day_zero (st : State) (uid : String) (t2 : Timestamp)
    (hu : st.currentUserId = some uid) (habs : peekStats st = none)
    (ht : t2.day = st.now.day) :
    (peekStats (checkLoginStreak { (getStats st).2 with now := t2 })).map
      UserStats.loginStreak = some 0 := by
  obtain ⟨h1, h2, h3, h4, h5⟩ := getStats_create st uid hu habs
  set st1 := (getStats st).2 with hst1
  have hpk : peekStats { st1 with now := t2 } = some (createEmptyStats uid st.now) := by
    rw [peekStats_set_now]; exact h2
  have hcu : ({ st1 with now := t2 } : State).currentUserId = some uid := by
    show st1.currentUserId = some uid
    rw [h3, hu]
  have hday : (createEmptyStats uid st.now).lastLoginDate.day = ({ st1 with now := t2 } : State).now.day := by
    show (createEmptyStats uid st.now).lastLoginDate.day = t2.day
    simp [createEmptyStats, ht]
  have hnoop := checkLoginStreak_of_peek { st1 with now := t2 } uid (createEmptyStats uid st.now) hcu hpk
  rw [if_pos (beq_iff_eq.mpr hday)] at hnoop
  rw [hnoop, hpk]
  simp [createEmptyStats]

/-- Witness for C9: a guest session created at day 10, streak checked
later the same day. -/
theorem checkLoginStreak_first_day_zero_witness :
    ((initState "g" true ⟨10, 2⟩).currentUserId = some "g" ∧
      peekStats (initState "g" true ⟨10, 2⟩) = none ∧
      (⟨10, 7⟩ : Timestamp).day = (initState "g" true ⟨10, 2⟩).now.day) ∧
    (peekStats (checkLoginStreak
        { (getStats (initState "g" true ⟨10, 2⟩)).2 with now := ⟨10, 7⟩ })).map
      UserStats.loginStreak = some 0 :=
  ⟨⟨rfl, rfl, rfl⟩,
    checkLoginStreak_first_day_zero (initState "g" true ⟨10, 2⟩) "g" ⟨10, 7⟩ rfl rfl rfl⟩

/-- A populated stats fixture. -/
def statFix (uid : String) (day streak : Nat) : UserStats :=
  { id := "stats_" ++ uid, userId := uid, totalTimeStudiedMinutes := 100,
    notesCreated := 1, quizzesTaken := 2, loginStreak := streak,
    lastLoginDate := ⟨day, 3⟩, dailyActivity := [(day, 20)], highScore := 5 }

/-- A session whose stats table holds exactly one record. -/
def stWith (uid : String) (guest : Bool) (t : Timestamp) (s : UserStats) : State :=
  { currentUserId := some uid, isGuestMode := guest,
    localDB := { emptyLocal with stats := [s] }, remote := ⟨[]⟩, now := t }

/-- C3: with a stored stats record whose last login was exactly
yesterday, checkLoginStreak today increments the streak; with a last
login two or more calendar days in the past it resets the streak to 1;
in both cases lastLoginDate is advanced to the current instant. -/
theorem checkLoginStreak_yesterday_or_older (st : State) (uid : String) (s : UserStats)
    (hu : st.currentUserId = some uid) (hs : peekStats st = some s) :
    (s.lastLoginDate.day + 1 = st.now.day →
      peekStats (checkLoginStreak st)
        = some { s with loginStreak := s.loginStreak + 1, lastLoginDate := st.now }) ∧
    (s.lastLoginDate.day + 2 ≤ st.now.day →
      peekStats (checkLoginStreak st)
        = some { s with loginStreak := 1, lastLoginDate := st.now }) := by
  constructor
  · intro hy
    have hne : s.lastLoginDate.day ≠ st.now.day := by omega
    rw [checkLoginStreak_of_peek st uid s hu hs, if_neg (by simp [hne])]
    have hk : (s.lastLoginDate.day == st.now.day - 1) = true := by
      rw [beq_iff_eq]; omega
    rw [peekStats_updateStats st uid s _ hu hs rfl]
    simp [hk]
  · intro ho
    have hne : s.lastLoginDate.day ≠ st.now.day := by omega
    rw [checkLoginStreak_of_peek st uid s hu hs, if_neg (by simp [hne])]
    have hk : (s.lastLoginDate.day == st.now.day - 1) = false := by
      rw [beq_eq_false_iff_ne]; omega
    rw [peekStats_updateStats st uid s _ hu hs rfl]
    simp [hk]

/-- Witness for C3: last login on day 9, checked on day 10 (yesterday
case, streak 4 becomes 5), and last login on day 7, checked on day 10
(reset case, streak becomes 1). -/
theorem checkLoginStreak_yesterday_or_older_witness :
    ((stWith "g" true ⟨10, 0⟩ (statFix "g" 9 4)).currentUserId = some "g" ∧
      peekStats (stWith "g" true ⟨10, 0⟩ (statFix "g" 9 4)) = some (statFix "g" 9 4) ∧
      (statFix "g" 9 4).lastLoginDate.day + 1 = (stWith "g" true ⟨10, 0⟩ (statFix "g" 9 4)).now.day ∧
      (statFix "g" 7 4).lastLoginDate.day + 2 ≤ (stWith "g" true ⟨10, 0⟩ (statFix "g" 7 4)).now.day) ∧
    peekStats (checkLoginStreak (stWith "g" true ⟨10, 0⟩ (statFix "g" 9 4)))
      = some { statFix "g" 9 4 with loginStreak := (statFix "g" 9 4).loginStreak + 1, lastLoginDate := ⟨10, 0⟩ } ∧
    peekStats (checkLoginStreak (stWith "g" true ⟨10, 0⟩ (statFix "g" 7 4)))
      = some { statFix "g" 7 4 with loginStreak := 1, lastLoginDate := ⟨10, 0⟩ } :=
  ⟨⟨rfl, rfl, rfl, by decide⟩,
    (checkLoginStreak_yesterday_or_older (stWith "g" true ⟨10, 0⟩ (statFix "g" 9 4))
      "g" (statFix "g" 9 4) rfl rfl).1 rfl,
    (checkLoginStreak_yesterday_or_older (stWith "g" true ⟨10, 0⟩ (statFix "g" 7 4))
      "g" (statFix "g" 7 4) rfl rfl).2 (by decide)⟩

/-- C4: checkLoginStreak run a second time within the same calendar date
leaves the streak at the value the first run produced. -/
theorem checkLoginStreak_idempotent_same_day (st : State) (uid : String) (s : UserStats)
    (t2 : Timestamp) (hu : st.currentUserId = some uid) (hs : peekStats st = some s)
    (ht : t2.day = st.now.day) :
    (peekStats (checkLoginStreak { checkLoginStreak st with now := t2 })).map
        UserStats.loginStreak
      = (peekStats (checkLoginStreak st)).map UserStats.loginStreak := by
  by_cases hd : s.lastLoginDate.day = st.now.day
  · have h1 : checkLoginStreak st = st := by
      rw [checkLoginStreak_of_peek st uid s hu hs, if_pos (beq_iff_eq.mpr hd)]
    rw [h1]
    have hcu2 : ({ st with now := t2 } : State).currentUserId = some uid := hu
    have hpk2 : peekStats { st with now := t2 } = some s := by
      rw [peekStats_set_now]; exact hs
    have hd2 : s.lastLoginDate.day = ({ st with now := t2 } : State).now.day := by
      show s.lastLoginDate.day = t2.day
      rw [ht]; exact hd
    have h2 : checkLoginStreak { st with now := t2 } = { st with now := t2 } := by
      rw [checkLoginStreak_of_peek _ uid s hcu2 hpk2, if_pos (beq_iff_eq.mpr hd2)]
    rw [h2, hpk2, hs]
  · have h1 : checkLoginStreak st = updateStats st (fun x => { x with
        loginStreak := if s.lastLoginDate.day == st.now.day - 1 then s.loginStreak + 1 else 1,
        lastLoginDate := st.now }) := by
      rw [checkLoginStreak_of_peek st uid s hu hs, if_neg (by simp [hd])]
    rw [h1]
    have hpk1 := peekStats_updateStats st uid s (fun x => { x with
        loginStreak := if s.lastLoginDate.day == st.now.day - 1 then s.loginStreak + 1 else 1,
        lastLoginDate := st.now }) hu hs rfl
    obtain ⟨hc, hg, hn⟩ := updateStats_sess st uid s (fun x => { x with
        loginStreak := if s.lastLoginDate.day == st.now.day - 1 then s.loginStreak + 1 else 1,
        lastLoginDate := st.now }) hu hs
    set st1 := updateStats st (fun x => { x with
        loginStreak := if s.lastLoginDate.day == st.now.day - 1 then s.loginStreak + 1 else 1,
        lastLoginDate := st.now }) with hst1
    set u := ({ s with
        loginStreak := if s.lastLoginDate.day == st.now.day - 1 then s.loginStreak + 1 else 1,
        lastLoginDate := st.now } : UserStats) with hu1
    have hcu2 : ({ st1 with now := t2 } : State).currentUserId = some uid := by
      show st1.currentUserId = some uid
      rw [hc, hu]
    have hpk2 : peekStats { st1 with now := t2 } = some u := by
      rw [peekStats_set_now]; exact hpk1
    have hday : u.lastLoginDate.day = ({ st1 with now := t2 } : State).now.day := by
      show st.now.day = t2.day
      rw [ht]
    have h2 : checkLoginStreak { st1 with now := t2 } = { st1 with now := t2 } := by
      rw [checkLoginStreak_of_peek _ uid u hcu2 hpk2, if_pos (beq_iff_eq.mpr hday)]
    rw [h2, hpk2, hpk1]

/-- Witness for C4: last login on day 9, the streak checked twice on day
10 (at two different instants of that day). -/
theorem checkLoginStreak_idempotent_same_day_witness :
    ((stWith "g" true ⟨10, 0⟩ (statFix "g" 9 4)).currentUserId = some "g" ∧
      peekStats (stWith "g" true ⟨10, 0⟩ (statFix "g" 9 4)) = some (statFix "g" 9 4) ∧
      (⟨10, 8⟩ : Timestamp).day = (stWith "g" true ⟨10, 0⟩ (statFix "g" 9 4)).now.day) ∧
    (peekStats (checkLoginStreak
        { checkLoginStreak (stWith "g" true ⟨10, 0⟩ (statFix "g" 9 4)) with now := ⟨10, 8⟩ })).map
        UserStats.loginStreak
      = (peekStats (checkLoginStreak (stWith "g" true ⟨10, 0⟩ (statFix "g" 9 4)))).map
        UserStats.loginStreak :=
  ⟨⟨rfl, rfl, rfl⟩,
    checkLoginStreak_idempotent_same_day (stWith "g" true ⟨10, 0⟩ (statFix "g" 9 4))
      "g" (statFix "g" 9 4) ⟨10, 8⟩ rfl rfl rfl⟩

/-- C5: two logStudyTime calls on the same calendar day add both amounts
to that day's daily-activity entry (on top of its prior value, 0 if
absent) and to the lifetime total. -/
theorem logStudyTime_accumulates (st : State) (uid : String) (s : UserStats)
    (t2 : Timestamp) (a b : Nat)
    (hu : st.currentUserId = some uid) (hs : peekStats st = some s)
    (ht : t2.day = st.now.day) :
    ∃ f : UserStats,
      peekStats (logStudyTime { logStudyTime st a with now := t2 } b) = some f ∧
      f.totalTimeStudiedMinutes = s.totalTimeStudiedMinutes + (a + b) ∧
      lookupDay f.dailyActivity st.now.day
        = some ((lookupDay s.dailyActivity st.now.day).getD 0 + (a + b)) := by
  have h1 : logStudyTime st a = updateStats st (fun x =>
      { x with
        totalTimeStudiedMinutes := x.totalTimeStudiedMinutes + a,
        dailyActivity := setDay x.dailyActivity st.now.day
          ((lookupDay x.dailyActivity st.now.day).getD 0 + a) }) :=
    logStudyTime_of_some st uid a hu
  rw [h1]
  have hpk1 := peekStats_updateStats st uid s (fun x =>
      { x with
        totalTimeStudiedMinutes := x.totalTimeStudiedMinutes + a,
        dailyActivity := setDay x.dailyActivity st.now.day
          ((lookupDay x.dailyActivity st.now.day).getD 0 + a) }) hu hs rfl
  obtain ⟨hc, hg, hn⟩ := updateStats_sess st uid s (fun x =>
      { x with
        totalTimeStudiedMinutes := x.totalTimeStudiedMinutes + a,
        dailyActivity := setDay x.dailyActivity st.now.day
          ((lookupDay x.dailyActivity st.now.day).getD 0 + a) }) hu hs
  set st1 := updateStats st (fun x =>
      { x with
        totalTimeStudiedMinutes := x.totalTimeStudiedMinutes + a,
        dailyActivity := setDay x.dailyActivity st.now.day
          ((lookupDay x.dailyActivity st.now.day).getD 0 + a) }) with hst1
  set u := ({ s with
      totalTimeStudiedMinutes := s.totalTimeStudiedMinutes + a,
      dailyActivity := setDay s.dailyActivity st.now.day
        ((lookupDay s.dailyActivity st.now.day).getD 0 + a) } : UserStats) with hu1
  have hcu2 : ({ st1 with now := t2 } : State).currentUserId = some uid := by
    show st1.currentUserId = some uid
    rw [hc, hu]
  have hpk2 : peekStats { st1 with now := t2 } = some u := by
    rw [peekStats_set_now]; exact hpk1
  have h2 : logStudyTime { st1 with now := t2 } b
      = updateStats { st1 with now := t2 } (fun x =>
        { x with
          totalTimeStudiedMinutes := x.totalTimeStudiedMinutes + b,
          dailyActivity := setDay x.dailyActivity t2.day
            ((lookupDay x.dailyActivity t2.day).getD 0 + b) }) :=
    logStudyTime_of_some { st1 with now := t2 } uid b hcu2
  rw [h2]
  have hpk3 := peekStats_updateStats { st1 with now := t2 } uid u (fun x =>
      { x with
        totalTimeStudiedMinutes := x.totalTimeStudiedMinutes + b,
        dailyActivity := setDay x.dailyActivity t2.day
          ((lookupDay x.dailyActivity t2.day).getD 0 + b) }) hcu2 hpk2 rfl
  refine ⟨_, hpk3, ?_, ?_⟩
  · show s.totalTimeStudiedMinutes + a + b = s.totalTimeStudiedMinutes + (a + b)
    omega
  · show lookupDay (setDay u.dailyActivity t2.day
        ((lookupDay u.dailyActivity t2.day).getD 0 + b)) st.now.day
      = some ((lookupDay s.dailyActivity st.now.day).getD 0 + (a + b))
    rw [ht]
    have hlu : lookupDay u.dailyActivity st.now.day
        = some ((lookupDay s.dailyActivity st.now.day).getD 0 + a) := by
      rw [hu1]
      exact lookupDay_setDay _ _ _
    rw [hlu, lookupDay_setDay]
    simp [Option.getD, Nat.add_assoc]

/-- Witness for C5: 30 then 15 minutes logged on day 10, on top of a
prior 20-minute entry for that day. -/
theorem logStudyTime_accumulates_witness :
    ((stWith "g" true ⟨10, 0⟩ (statFix "g" 9 4)).currentUserId = some "g" ∧
      peekStats (stWith "g" true ⟨10, 0⟩ (statFix "g" 9 4)) = some (statFix "g" 9 4) ∧
      (⟨10, 8⟩ : Timestamp).day = (stWith "g" true ⟨10, 0⟩ (statFix "g" 9 4)).now.day) ∧
    (∃ f : UserStats,
      peekStats (logStudyTime
          { logStudyTime (stWith "g" true ⟨10, 0⟩ (statFix "g" 9 4)) 30 with now := ⟨10, 8⟩ } 15)
        = some f ∧
      f.totalTimeStudiedMinutes = (statFix "g" 9 4).totalTimeStudiedMinutes + (30 + 15) ∧
      lookupDay f.dailyActivity (stWith "g" true ⟨10, 0⟩ (statFix "g" 9 4)).now.day
        = some ((lookupDay (statFix "g" 9 4).dailyActivity
            (stWith "g" true ⟨10, 0⟩ (statFix "g" 9 4)).now.day).getD 0 + (30 + 15))) :=
  ⟨⟨rfl, rfl, rfl⟩,
    logStudyTime_accumulates (stWith "g" true ⟨10, 0⟩ (statFix "g" 9 4))
      "g" (statFix "g" 9 4) ⟨10, 8⟩ 30 15 rfl rfl rfl⟩

theorem filter_own_of_filter_other (uid : String) (l : List Entity) :
    (l.filter (fun (i : Entity) => i.userId != uid)).filter (fun (i : Entity) => i.userId == uid) = [] := by
  induction l with
  | nil => rfl
  | cons a t ih =>
    by_cases ha : (a.userId == uid) = true
    · simp [List.filter_cons, ha, bne, ih]
    · simp only [Bool.not_eq_true] at ha
      simp [List.filter_cons, ha, bne, ih]

/-- C6: in guest mode, saveNotes replaces the current user's whole notes
collection with the given list; saving the empty list afterwards makes
getNotes return the empty list. -/
theorem saveNotes_guest_full_replace (st : State) (uid : String) (L : List Entity)
    (ck ck' : Bool)
    (hu : st.currentUserId = some uid) (hg : st.isGuestMode = true)
    (hown : ∀ e ∈ L, e.userId = uid) :
    getNotes (saveNotes st L ck) = L.map DocData.entityDoc ∧
    getNotes (saveNotes (saveNotes st L ck) [] ck') = [] := by
  obtain ⟨cu, g, ldb, rdb, n⟩ := st
  have hcu : cu = some uid := hu
  subst hcu
  have hgg : g = true := hg
  subst hgg
  have hL : L.filter (fun (i : Entity) => i.userId == uid) = L :=
    List.filter_eq_self.mpr (fun a ha => beq_iff_eq.mpr (hown a ha))
  constructor
  · show ((((ldb.notes.filter (fun (i : Entity) => i.userId != uid)) ++ L).filter
        (fun (i : Entity) => i.userId == uid)).map DocData.entityDoc) = L.map DocData.entityDoc
    rw [List.filter_append, filter_own_of_filter_other, hL, List.nil_append]
  · show (((((ldb.notes.filter (fun (i : Entity) => i.userId != uid)) ++ L).filter
        (fun (i : Entity) => i.userId != uid) ++ []).filter
        (fun (i : Entity) => i.userId == uid)).map DocData.entityDoc) = []
    rw [List.append_nil, List.filter_append, List.filter_append,
      filter_own_of_filter_other, filter_own_of_filter_other]
    rfl

/-- Witness for C6: two notes saved, then the empty list. -/
theorem saveNotes_guest_full_replace_witness :
    ((initState "g" true ⟨10, 0⟩).currentUserId = some "g" ∧
      (initState "g" true ⟨10, 0⟩).isGuestMode = true ∧
      (∀ e ∈ [Entity.mk "n1" "g" 0, Entity.mk "n2" "g" 1], e.userId = "g")) ∧
    getNotes (saveNotes (initState "g" true ⟨10, 0⟩) [Entity.mk "n1" "g" 0, Entity.mk "n2" "g" 1] true)
      = [DocData.entityDoc (Entity.mk "n1" "g" 0), DocData.entityDoc (Entity.mk "n2" "g" 1)] ∧
    getNotes (saveNotes (saveNotes (initState "g" true ⟨10, 0⟩)
        [Entity.mk "n1" "g" 0, Entity.mk "n2" "g" 1] true) [] true) = [] :=
  ⟨⟨rfl, rfl, by decide⟩,
    (saveNotes_guest_full_replace (initState "g" true ⟨10, 0⟩) "g"
      [Entity.mk "n1" "g" 0, Entity.mk "n2" "g" 1] true true rfl rfl (by decide)).1,
    (saveNotes_guest_full_replace (initState "g" true ⟨10, 0⟩) "g"
      [Entity.mk "n1" "g" 0, Entity.mk "n2" "g" 1] true true rfl rfl (by decide)).2⟩

/-- C10: the guest save path does not validate ownership. Whatever list
the current user saves, any record in it stamped with another user's id
is stored verbatim in the shared table, is returned by that other
user's reads, and survives any later full-replace save by the current
user. -/
theorem saveNotes_guest_no_ownership_check (st : State) (uidA uidB : String)
    (nrec : Entity) (M L : List Entity) (ck ck' : Bool)
    (hu : st.currentUserId = some uidA) (hg : st.isGuestMode = true)
    (hn : nrec.userId = uidB) (hne : uidB ≠ uidA) (hmem : nrec ∈ M) :
    nrec ∈ (saveNotes st M ck).localDB.notes ∧
    DocData.entityDoc nrec ∈ getNotes { saveNotes st M ck with currentUserId := some uidB } ∧
    DocData.entityDoc nrec ∈ getNotes { saveNotes (saveNotes st M ck) L ck'
      with currentUserId := some uidB } := by
  obtain ⟨cu, g, ldb, rdb, n⟩ := st
  have hcu : cu = some uidA := hu
  subst hcu
  have hgg : g = true := hg
  subst hgg
  have hb : (nrec.userId == uidB) = true := beq_iff_eq.mpr hn
  have hnotA : (nrec.userId != uidA) = true := by
    simp [bne, hn, hne]
  refine ⟨?_, ?_, ?_⟩
  · show nrec ∈ ldb.notes.filter (fun (i : Entity) => i.userId != uidA) ++ M
    exact List.mem_append_right _ hmem
  · show DocData.entityDoc nrec ∈
      ((ldb.notes.filter (fun (i : Entity) => i.userId != uidA) ++ M).filter
        (fun (i : Entity) => i.userId == uidB)).map DocData.entityDoc
    refine List.mem_map.mpr ⟨nrec, List.mem_filter.mpr ⟨?_, hb⟩, rfl⟩
    exact List.mem_append_right _ hmem
  · show DocData.entityDoc nrec ∈
      ((((ldb.notes.filter (fun (i : Entity) => i.userId != uidA) ++ M).filter
          (fun (i : Entity) => i.userId != uidA)) ++ L).filter
        (fun (i : Entity) => i.userId == uidB)).map DocData.entityDoc
    refine List.mem_map.mpr ⟨nrec, List.mem_filter.mpr ⟨?_, hb⟩, rfl⟩
    refine List.mem_append_left _ (List.mem_filter.mpr ⟨?_, hnotA⟩)
    exact List.mem_append_right _ hmem

/-- Witness for C10: user g saves their full notes array in which one
record is stamped with user h's id, then replaces their own collection
with a fresh list; user h still reads the foreign record. -/
theorem saveNotes_guest_no_ownership_check_witness :
    ((initState "g" true ⟨10, 0⟩).currentUserId = some "g" ∧
      (initState "g" true ⟨10, 0⟩).isGuestMode = true ∧
      (Entity.mk "n1" "h" 0).userId = "h" ∧ "h" ≠ "g" ∧
      (Entity.mk "n1" "h" 0) ∈ [Entity.mk "n0" "g" 5, Entity.mk "n1" "h" 0]) ∧
    (Entity.mk "n1" "h" 0) ∈ (saveNotes (initState "g" true ⟨10, 0⟩)
      [Entity.mk "n0" "g" 5, Entity.mk "n1" "h" 0] true).localDB.notes ∧
    DocData.entityDoc (Entity.mk "n1" "h" 0) ∈ getNotes
      { saveNotes (initState "g" true ⟨10, 0⟩)
          [Entity.mk "n0" "g" 5, Entity.mk "n1" "h" 0] true
        with currentUserId := some "h" } ∧
    DocData.entityDoc (Entity.mk "n1" "h" 0) ∈ getNotes
      { saveNotes (saveNotes (initState "g" true ⟨10, 0⟩)
          [Entity.mk "n0" "g" 5, Entity.mk "n1" "h" 0] true) [Entity.mk "n2" "g" 6] true
        with currentUserId := some "h" } :=
  ⟨⟨rfl, rfl, rfl, by decide, by decide⟩,
    (saveNotes_guest_no_ownership_check (initState "g" true ⟨10, 0⟩) "g" "h"
      (Entity.mk "n1" "h" 0) [Entity.mk "n0" "g" 5, Entity.mk "n1" "h" 0]
      [Entity.mk "n2" "g" 6] true true rfl rfl rfl (by decide) (by decide)).1,
    (saveNotes_guest_no_ownership_check (initState "g" true ⟨10, 0⟩) "g" "h"
      (Entity.mk "n1" "h" 0) [Entity.mk "n0" "g" 5, Entity.mk "n1" "h" 0]
      [Entity.mk "n2" "g" 6] true true rfl rfl rfl (by decide) (by decide)).2.1,
    (saveNotes_guest_no_ownership_check (initState "g" true ⟨10, 0⟩) "g" "h"
      (Entity.mk "n1" "h" 0) [Entity.mk "n0" "g" 5, Entity.mk "n1" "h" 0]
      [Entity.mk "n2" "g" 6] true true rfl rfl rfl (by decide) (by decide)).2.2⟩

/-- C7: in authenticated mode, saveSummaries upserts each listed record
by id into the remote subcollection; saving a then b with distinct ids
leaves both readable, and no document at any other path is changed (in
particular nothing absent from the saved lists is deleted). -/
theorem saveSummaries_remote_upsert (st : State) (uid : String) (a b : Entity)
    (hu : st.currentUserId = some uid) (hg : st.isGuestMode = false)
    (hab : a.id ≠ b.id) :
    DocData.entityDoc a ∈ getSummaries (saveSummaries (saveSummaries st [a] true) [b] true) ∧
    DocData.entityDoc b ∈ getSummaries (saveSummaries (saveSummaries st [a] true) [b] true) ∧
    (∀ u' c' i', ¬(u' = uid ∧ c' = "summaries" ∧ (i' = a.id ∨ i' = b.id)) →
      (saveSummaries (saveSummaries st [a] true) [b] true).remote.getDoc u' c' i'
        = st.remote.getDoc u' c' i') := by
  obtain ⟨cu, g, ldb, rdb, n⟩ := st
  have hcu : cu = some uid := hu
  subst hcu
  have hgg : g = false := hg
  subst hgg
  have h2 : (saveSummaries (saveSummaries
      (⟨some uid, false, ldb, rdb, n⟩ : State) [a] true) [b] true).remote
      = (rdb.setDoc uid "summaries" a.id (.entityDoc a)).setDoc uid "summaries" b.id
        (.entityDoc b) := rfl
  have hga : ((rdb.setDoc uid "summaries" a.id (.entityDoc a)).setDoc uid "summaries" b.id
      (.entityDoc b)).getDoc uid "summaries" a.id = some (.entityDoc a) := by
    rw [getDoc_setDoc_ne _ _ _ _ _ _ _ _ (by intro ⟨_, _, hi⟩; exact hab hi.symm)]
    exact getDoc_setDoc_same _ _ _ _ _
  have hgb : ((rdb.setDoc uid "summaries" a.id (.entityDoc a)).setDoc uid "summaries" b.id
      (.entityDoc b)).getDoc uid "summaries" b.id = some (.entityDoc b) :=
    getDoc_setDoc_same _ _ _ _ _
  refine ⟨?_, ?_, ?_⟩
  · exact mem_getDocsData_of_getDoc _ _ _ _ _ hga
  · exact mem_getDocsData_of_getDoc _ _ _ _ _ hgb
  · intro u' c' i' hne
    rw [h2, getDoc_setDoc_ne _ _ _ _ _ _ _ _ (fun ⟨h1', h2', h3'⟩ =>
        hne ⟨h1'.symm, h2'.symm, Or.inr h3'.symm⟩),
      getDoc_setDoc_ne _ _ _ _ _ _ _ _ (fun ⟨h1', h2', h3'⟩ =>
        hne ⟨h1'.symm, h2'.symm, Or.inl h3'.symm⟩)]

/-- Witness for C7: two summaries with distinct ids saved one after the
other into an authenticated session. -/
theorem saveSummaries_remote_upsert_witness :
    ((initState "u" false ⟨10, 0⟩).currentUserId = some "u" ∧
      (initState "u" false ⟨10, 0⟩).isGuestMode = false ∧
      (Entity.mk "s1" "u" 0).id ≠ (Entity.mk "s2" "u" 1).id) ∧
    DocData.entityDoc (Entity.mk "s1" "u" 0) ∈ getSummaries
      (saveSummaries (saveSummaries (initState "u" false ⟨10, 0⟩)
        [Entity.mk "s1" "u" 0] true) [Entity.mk "s2" "u" 1] true) ∧
    DocData.entityDoc (Entity.mk "s2" "u" 1) ∈ getSummaries
      (saveSummaries (saveSummaries (initState "u" false ⟨10, 0⟩)
        [Entity.mk "s1" "u" 0] true) [Entity.mk "s2" "u" 1] true) :=
  ⟨⟨rfl, rfl, by decide⟩,
    (saveSummaries_remote_upsert (initState "u" false ⟨10, 0⟩) "u"
      (Entity.mk "s1" "u" 0) (Entity.mk "s2" "u" 1) rfl rfl (by decide)).1,
    (saveSummaries_remote_upsert (initState "u" false ⟨10, 0⟩) "u"
      (Entity.mk "s1" "u" 0) (Entity.mk "s2" "u" 1) rfl rfl (by decide)).2.1⟩

/-- C8 as stated is false: in authenticated mode the dispatcher passes
the name straight through as a subcollection path, and the name data,
unrecognized by the guest-mode key map, is the subcollection holding the
stats document; once getStats has lazily created the stats record,
loadCollection applied to data returns it rather than the empty list. -/
theorem loadCollection_data_not_empty :
    localKeyOf "data" = none ∧
    loadCollection ((getStats (initState "u" false ⟨5, 0⟩)).2) "data" ≠ [] := by
  constructor
  · rfl
  · decide

/-- C8 amended: loadCollection returns the empty list whenever no user
id is active (either mode); in guest mode whenever the name is outside
the five-entry key map; and in authenticated mode whenever no remote
document is stored under that subcollection name — which holds for
every name the storage layer itself never writes, but not for data,
where the stats document lives. -/
theorem loadCollection_soft_empty (st : State) (name : String) :
    (st.currentUserId = none → loadCollection st name = []) ∧
    (∀ uid, st.currentUserId = some uid → st.isGuestMode = true →
      localKeyOf name = none → loadCollection st name = []) ∧
    (∀ uid, st.currentUserId = some uid → st.isGuestMode = false →
      (∀ d ∈ st.remote.docs, d.coll ≠ name) → loadCollection st name = []) := by
  obtain ⟨cu, g, ldb, rdb, n⟩ := st
  refine ⟨?_, ?_, ?_⟩
  · intro h
    have hcu : cu = none := h
    subst hcu
    rfl
  · intro uid hu hgg hk
    have hcu : cu = some uid := hu
    subst hcu
    have hg2 : g = true := hgg
    subst hg2
    show (match localKeyOf name with
      | none => ([] : List DocData)
      | some key => (getLocalUserItems ldb key uid).map DocData.entityDoc) = []
    rw [hk]
  · intro uid hu hgg hd
    have hcu : cu = some uid := hu
    subst hcu
    have hg2 : g = false := hgg
    subst hg2
    show (rdb.docs.filter (fun d => d.uid == uid && d.coll == name)).map RemoteDoc.data = []
    have : rdb.docs.filter (fun d => d.uid == uid && d.coll == name) = [] := by
      rw [List.filter_eq_nil_iff]
      intro d hdm
      have := hd d hdm
      simp [this]
    rw [this]
    rfl

/-- Witness for C8 amended: a sessionless state, an unrecognized name in
a guest session, and an unrecognized never-written name in an
authenticated session all resolve to the empty list. -/
theorem loadCollection_soft_empty_witness :
    (({ initState "g" true ⟨10, 0⟩ with currentUserId := none } : State).currentUserId = none ∧
      (initState "g" true ⟨10, 0⟩).currentUserId = some "g" ∧
      localKeyOf "bogus" = none ∧
      (initState "u" false ⟨10, 0⟩).currentUserId = some "u" ∧
      (∀ d ∈ (initState "u" false ⟨10, 0⟩).remote.docs, d.coll ≠ "bogus")) ∧
    loadCollection { initState "g" true ⟨10, 0⟩ with currentUserId := none } "bogus" = [] ∧
    loadCollection (initState "g" true ⟨10, 0⟩) "bogus" = [] ∧
    loadCollection (initState "u" false ⟨10, 0⟩) "bogus" = [] :=
  ⟨⟨rfl, rfl, rfl, rfl, by intro d hd; cases hd⟩,
    (loadCollection_soft_empty { initState "g" true ⟨10, 0⟩ with currentUserId := none }
      "bogus").1 rfl,
    (loadCollection_soft_empty (initState "g" true ⟨10, 0⟩) "bogus").2.1 "g" rfl rfl rfl,
    (loadCollection_soft_empty (initState "u" false ⟨10, 0⟩) "bogus").2.2 "u" rfl rfl
      (by intro d hd; cases hd)⟩

theorem applyBatch_append (r : RemoteDB) (ops1 ops2 : List BatchOp) :
    applyBatch r (ops1 ++ ops2) = applyBatch (applyBatch r ops1) ops2 :=
  List.foldl_append _ _ _ _

theorem batch_map_untouched (l : List Entity) (g : Entity → DocData) (u0 c0 u c i : String)
    (hne : c0 ≠ c) :
    ∀ op ∈ l.map (fun item => BatchOp.mk u0 c0 item.id (g item)),
      ¬(op.uid = u ∧ op.coll = c ∧ op.docId = i) := by
  intro op hop
  rcases List.mem_map.mp hop with ⟨item, _, rfl⟩
  intro ⟨_, hc, _⟩
  exact hne hc

theorem getDoc_applyBatch_map_other (r : RemoteDB) (l : List Entity) (g : Entity → DocData)
    (u0 c0 u c i : String) (hne : c0 ≠ c) :
    (applyBatch r (l.map (fun item => BatchOp.mk u0 c0 item.id (g item)))).getDoc u c i
      = r.getDoc u c i :=
  getDoc_applyBatch_untouched _ r u c i (batch_map_untouched l g u0 c0 u c i hne)

theorem getDoc_applyBatch_stats_other (r : RemoteDB) (stats : List UserStats)
    (guestId authId u c i : String) (hc : c ≠ "data") :
    (applyBatch r (match stats.find? (fun s => s.userId == guestId) with
      | some s => [BatchOp.mk authId "data" "stats"
          (DocData.statsDoc { s with userId := authId, id := "stats_" ++ authId })]
      | none => ([] : List BatchOp))).getDoc u c i = r.getDoc u c i := by
  apply getDoc_applyBatch_untouched
  cases stats.find? (fun s => s.userId == guestId) with
  | none => intro op hop; cases hop
  | some s =>
    intro op hop
    rcases List.mem_cons.mp hop with rfl | hmem
    · intro ⟨_, hcc, _⟩
      exact hc hcc.symm
    · cases hmem

/-- C1: migrateData queues every guest-owned record of the five local
collections, re-stamped to the authenticated id, plus the guest's stats
record if present (with the derived stats id), into one batch and
commits it once. A rejected commit leaves the state untouched; an
accepted commit lands every record at its destination path. -/
theorem migrateData_complete_and_atomic (st : State) (guestId authId : String)
    (hN : ((getLocalUserItems st.localDB .notes guestId).map Entity.id).Nodup)
    (hS : ((getLocalUserItems st.localDB .summaries guestId).map Entity.id).Nodup)
    (hQ : ((getLocalUserItems st.localDB .queue guestId).map Entity.id).Nodup)
    (hT : ((getLocalUserItems st.localDB .tasks guestId).map Entity.id).Nodup)
    (hZ : ((getLocalUserItems st.localDB .quizzes guestId).map Entity.id).Nodup) :
    migrateData st guestId authId false = st ∧
    (∀ e ∈ getLocalUserItems st.localDB .notes guestId,
      (migrateData st guestId authId true).remote.getDoc authId "notes" e.id
        = some (.entityDoc { e with userId := authId })) ∧
    (∀ e ∈ getLocalUserItems st.localDB .summaries guestId,
      (migrateData st guestId authId true).remote.getDoc authId "summaries" e.id
        = some (.entityDoc { e with userId := authId })) ∧
    (∀ e ∈ getLocalUserItems st.localDB .queue guestId,
      (migrateData st guestId authId true).remote.getDoc authId "queue" e.id
        = some (.entityDoc { e with userId := authId })) ∧
    (∀ e ∈ getLocalUserItems st.localDB .tasks guestId,
      (migrateData st guestId authId true).remote.getDoc authId "tasks" e.id
        = some (.entityDoc { e with userId := authId })) ∧
    (∀ e ∈ getLocalUserItems st.localDB .quizzes guestId,
      (migrateData st guestId authId true).remote.getDoc authId "quizzes" e.id
        = some (.entityDoc { e with userId := authId })) ∧
    (∀ s, st.localDB.stats.find? (fun x => x.userId == guestId) = some s →
      (migrateData st guestId authId true).remote.getDoc authId "data" "stats"
        = some (.statsDoc { s with userId := authId, id := "stats_" ++ authId })) := by
  have hform : (migrateData st guestId authId true).remote
      = applyBatch (applyBatch (applyBatch (applyBatch (applyBatch (applyBatch st.remote
          ((getLocalUserItems st.localDB .notes guestId).map
            (fun item => BatchOp.mk authId "notes" item.id
              (.entityDoc { item with userId := authId }))))
          ((getLocalUserItems st.localDB .summaries guestId).map
            (fun item => BatchOp.mk authId "summaries" item.id
              (.entityDoc { item with userId := authId }))))
          ((getLocalUserItems st.localDB .queue guestId).map
            (fun item => BatchOp.mk authId "queue" item.id
              (.entityDoc { item with userId := authId }))))
          ((getLocalUserItems st.localDB .tasks guestId).map
            (fun item => BatchOp.mk authId "tasks" item.id
              (.entityDoc { item with userId := authId }))))
          ((getLocalUserItems st.localDB .quizzes guestId).map
            (fun item => BatchOp.mk authId "quizzes" item.id
              (.entityDoc { item with userId := authId }))))
        (match st.localDB.stats.find? (fun s => s.userId == guestId) with
          | some s => [BatchOp.mk authId "data" "stats"
              (DocData.statsDoc { s with userId := authId, id := "stats_" ++ authId })]
          | none => ([] : List BatchOp)) := by
    show applyBatch st.remote (migrateOps st guestId authId) = _
    simp only [migrateOps, applyBatch_append]
  refine ⟨rfl, ?_, ?_, ?_, ?_, ?_, ?_⟩
  · intro e he
    rw [hform,
      getDoc_applyBatch_stats_other _ st.localDB.stats guestId authId authId "notes" e.id
        (by decide),
      getDoc_applyBatch_map_other _ (getLocalUserItems st.localDB .quizzes guestId)
        (fun item => DocData.entityDoc { item with userId := authId })
        authId "quizzes" authId "notes" e.id (by decide),
      getDoc_applyBatch_map_other _ (getLocalUserItems st.localDB .tasks guestId)
        (fun item => DocData.entityDoc { item with userId := authId })
        authId "tasks" authId "notes" e.id (by decide),
      getDoc_applyBatch_map_other _ (getLocalUserItems st.localDB .queue guestId)
        (fun item => DocData.entityDoc { item with userId := authId })
        authId "queue" authId "notes" e.id (by decide),
      getDoc_applyBatch_map_other _ (getLocalUserItems st.localDB .summaries guestId)
        (fun item => DocData.entityDoc { item with userId := authId })
        authId "summaries" authId "notes" e.id (by decide)]
    exact getDoc_applyBatch_map_set _ _ _ _ _ hN e he
  · intro e he
    rw [hform,
      getDoc_applyBatch_stats_other _ st.localDB.stats guestId authId authId "summaries" e.id
        (by decide),
      getDoc_applyBatch_map_other _ (getLocalUserItems st.localDB .quizzes guestId)
        (fun item => DocData.entityDoc { item with userId := authId })
        authId "quizzes" authId "summaries" e.id (by decide),
      getDoc_applyBatch_map_other _ (getLocalUserItems st.localDB .tasks guestId)
        (fun item => DocData.entityDoc { item with userId := authId })
        authId "tasks" authId "summaries" e.id (by decide),
      getDoc_applyBatch_map_other _ (getLocalUserItems st.localDB .queue guestId)
        (fun item => DocData.entityDoc { item with userId := authId })
        authId "queue" authId "summaries" e.id (by decide)]
    exact getDoc_applyBatch_map_set _ _ _ _ _ hS e he
  · intro e he
    rw [hform,
      getDoc_applyBatch_stats_other _ st.localDB.stats guestId authId authId "queue" e.id
        (by decide),
      getDoc_applyBatch_map_other _ (getLocalUserItems st.localDB .quizzes guestId)
        (fun item => DocData.entityDoc { item with userId := authId })
        authId "quizzes" authId "queue" e.id (by decide),
      getDoc_applyBatch_map_other _ (getLocalUserItems st.localDB .tasks guestId)
        (fun item => DocData.entityDoc { item with userId := authId })
        authId "tasks" authId "queue" e.id (by decide)]
    exact getDoc_applyBatch_map_set _ _ _ _ _ hQ e he
  · intro e he
    rw [hform,
      getDoc_applyBatch_stats_other _ st.localDB.stats guestId authId authId "tasks" e.id
        (by decide),
      getDoc_applyBatch_map_other _ (getLocalUserItems st.localDB .quizzes guestId)
        (fun item => DocData.entityDoc { item with userId := authId })
        authId "quizzes" authId "tasks" e.id (by decide)]
    exact getDoc_applyBatch_map_set _ _ _ _ _ hT e he
  · intro e he
    rw [hform,
      getDoc_applyBatch_stats_other _ st.localDB.stats guestId authId authId "quizzes" e.id
        (by decide)]
    exact getDoc_applyBatch_map_set _ _ _ _ _ hZ e he
  · intro s hfs
    rw [hform]
    simp only [hfs]
    exact getDoc_setDoc_same _ _ _ _ _

/-- A guest data set ready for migration: one record per collection
(plus a foreign-owned note that must stay behind) and a stats record. -/
def migrateFixture : State :=
  { currentUserId := some "g", isGuestMode := true,
    localDB := ⟨[Entity.mk "n1" "g" 0, Entity.mk "nx" "other" 7],
      [Entity.mk "s1" "g" 1], [Entity.mk "q1" "g" 2], [Entity.mk "t1" "g" 3],
      [Entity.mk "z1" "g" 4], [statFix "g" 9 4]⟩,
    remote := ⟨[]⟩, now := ⟨10, 0⟩ }

/-- Witness for C1: the fixture migrated from g to a; a failed commit
changes nothing, a successful one lands each record re-stamped. -/
theorem migrateData_complete_and_atomic_witness :
    (((getLocalUserItems migrateFixture.localDB .notes "g").map Entity.id).Nodup ∧
      ((getLocalUserItems migrateFixture.localDB .summaries "g").map Entity.id).Nodup ∧
      ((getLocalUserItems migrateFixture.localDB .queue "g").map Entity.id).Nodup ∧
      ((getLocalUserItems migrateFixture.localDB .tasks "g").map Entity.id).Nodup ∧
      ((getLocalUserItems migrateFixture.localDB .quizzes "g").map Entity.id).Nodup) ∧
    migrateData migrateFixture "g" "a" false = migrateFixture ∧
    (migrateData migrateFixture "g" "a" true).remote.getDoc "a" "notes" "n1"
      = some (.entityDoc (Entity.mk "n1" "a" 0)) ∧
    (migrateData migrateFixture "g" "a" true).remote.getDoc "a" "summaries" "s1"
      = some (.entityDoc (Entity.mk "s1" "a" 1)) ∧
    (migrateData migrateFixture "g" "a" true).remote.getDoc "a" "quizzes" "z1"
      = some (.entityDoc (Entity.mk "z1" "a" 4)) ∧
    (migrateData migrateFixture "g" "a" true).remote.getDoc "a" "data" "stats"
      = some (.statsDoc { statFix "g" 9 4 with userId := "a", id := "stats_" ++ "a" }) :=
  ⟨⟨by decide, by decide, by decide, by decide, by decide⟩,
    (migrateData_complete_and_atomic migrateFixture "g" "a"
      (by decide) (by decide) (by decide) (by decide) (by decide)).1,
    (migrateData_complete_and_atomic migrateFixture "g" "a"
      (by decide) (by decide) (by decide) (by decide) (by decide)).2.1
      (Entity.mk "n1" "g" 0) (by decide),
    (migrateData_complete_and_atomic migrateFixture "g" "a"
      (by decide) (by decide) (by decide) (by decide) (by decide)).2.2.1
      (Entity.mk "s1" "g" 1) (by decide),
    (migrateData_complete_and_atomic migrateFixture "g" "a"
      (by decide) (by decide) (by decide) (by decide) (by decide)).2.2.2.2.2.1
      (Entity.mk "z1" "g" 4) (by decide),
    (migrateData_complete_and_atomic migrateFixture "g" "a"
      (by decide) (by decide) (by decide) (by decide) (by decide)).2.2.2.2.2.2
      (statFix "g" 9 4) (by decide)⟩

end Procastify
